import Mathlib

/-!
Verification development for the `wat_compiler` intermediate representation
(`src/wat_compiler/ir_types.ts`) of the source-academy wabt repository: a
shallow embedding of the IR data model (tokens, token expressions, module
expressions) and of its operations (`unfold`, `resolveTypes`,
`addGlobalType`, `resolveGlobalTypeIndex`, `addFunctionExpression`,
`resolveVariableIndex`, the `ExportExpression` constructor), together with
theorems settling the specification's claims about them.
-/

namespace Wabt

/-- Modelled from the spec: WebAssembly scalar value types (`src/common/type.ts`
is not part of the sources given; the spec lists `i32`/`i64`/`f32`/`f64`). -/
inductive ValueType where
  | i32
  | i64
  | f32
  | f64
  deriving DecidableEq, Repr

/-- Modelled from the spec: the closed enumeration of token kinds
(`src/common/token.ts` is not part of the sources given; the spec lists
parens, keywords, opcode mnemonics, value-type names, numeric literals,
text literals and symbolic names). Only the kinds the IR operations inspect
are distinguished; `Other` stands for every remaining kind. -/
inductive TokenType where
  | Nat
  | Float
  | Var
  | Text
  | Func
  | Module
  | Block
  | Loop
  | If
  | Else
  | End
  | ValueTypeTok
  | Opcode
  | Lpar
  | Rpar
  | Other
  deriving DecidableEq, Repr

/-- Modelled from the spec: opcode identities carried by tokens
(`src/common/opcode.ts` is not part of the sources given). Only `End` is
inspected by the embedded operations (`BlockExpression.createEndToken`). -/
inductive OpcodeType where
  | End
  | Nop
  | OtherOp
  deriving DecidableEq, Repr

/-- A lexical token (`Token` from `src/common/token.ts`, whose source is not
given). Modelled from the spec: a token carries its kind, lexeme, position
(`line`, `col`, `indexInSource`), the opcode identity when it is an opcode
token, and the opcode's static stack effect denormalized from the opcode
table (`consumedTypes`/`returnTypes`, consulted by `Token.getConsumedTypes`
and `Token.getReturnTypes`). -/
structure Token where
  type : TokenType
  lexeme : String
  line : Nat
  col : Nat
  indexInSource : Nat
  opcodeType : Option OpcodeType
  valueType : Option ValueType
  consumedTypes : List ValueType
  returnTypes : List ValueType
  deriving DecidableEq, Repr

/-- `FunctionSignature` from `ir_types.ts`: parameter and return value-type
lists. The spec calls this `SignatureType`; lodash `isEqual` on it is
structural equality, which is definitional equality here. -/
structure FunctionSignature where
  paramTypes : List ValueType
  returnTypes : List ValueType
  deriving DecidableEq, Repr

/-- The spec's name for `FunctionSignature`. -/
abbrev SignatureType := FunctionSignature

/-- The `TokenExpression` class hierarchy of `ir_types.ts` as a sum:
`OperationTree{operator, operands}`, `UnfoldedTokenExpression{tokens}`,
`EmptyTokenExpression`, and `BlockExpression{headerToken, signature,
blockExpression, label}`.  The `signature` argument of `block` records what
the TypeScript constructor receives; mirroring the source, `getSignature`
below never reads it (the constructor never assigns the field). -/
inductive TokenExpression where
  | operationTree (operator : Token) (operands : List (Token ⊕ TokenExpression))
  | unfolded (tokens : List (Token ⊕ TokenExpression))
  | empty
  | block (headerToken : Token) (signature : FunctionSignature)
      (blockExpression : TokenExpression) (label : Option String)

/-- `BlockExpression.createEndToken`: a synthesized `end` token inheriting the
header token's position. -/
def createEndToken (headerToken : Token) : Token :=
  { type := TokenType.End
    lexeme := "end"
    line := headerToken.line
    col := headerToken.col
    indexInSource := headerToken.indexInSource
    opcodeType := some OpcodeType.End
    valueType := none
    consumedTypes := []
    returnTypes := [] }

/-- One step of the abstract-stack loop shared by
`OperationTree.resolveTypes` and `UnfoldedTokenExpression.resolveTypes`:
`for (const c of consumed) { if (stack.at(-1) === c) stack.pop(); else throw }`.
The stack is a JS array: index 0 is the bottom, `stack.at(-1)` the top.
`Except.error ()` models the thrown `Type mismatch` error (when the top
differs from `c`, or the stack is empty so `at(-1)` is `undefined`). -/
def popConsumed : List ValueType → List ValueType → Except Unit (List ValueType)
  | stack, [] => Except.ok stack
  | stack, c :: cs =>
    match stack.getLast? with
    | some top => if top = c then popConsumed stack.dropLast cs else Except.error ()
    | none => Except.error ()

mutual

/-- The pair `(getConsumedTypes(), getReturnTypes())` of a `TokenExpression`
in `ir_types.ts`, i.e. the result of the memoized `resolveTypes`:
* `OperationTree`: run the operand loop on a fresh empty stack, require the
  final stack to equal the operator's consumed types (`isEqual`), then
  `consumedTypes = []` and `returnTypes = operator.getReturnTypes()`;
* `UnfoldedTokenExpression`: run the same loop on a fresh empty stack,
  then `consumedTypes = []` and `returnTypes = stack`;
* `EmptyTokenExpression`: `([], [])`;
* `BlockExpression`: `resolveTypes` builds the signature from the body's
  consumed and return types, and the getters project it. -/
def exprTypes : TokenExpression → Except Unit (List ValueType × List ValueType)
  | TokenExpression.operationTree operator operands =>
    match runStack [] operands with
    | Except.ok stack =>
      if stack = operator.consumedTypes then
        Except.ok ([], operator.returnTypes)
      else
        Except.error ()
    | Except.error e => Except.error e
  | TokenExpression.unfolded tokens =>
    match runStack [] tokens with
    | Except.ok stack => Except.ok ([], stack)
    | Except.error e => Except.error e
  | TokenExpression.empty => Except.ok ([], [])
  | TokenExpression.block _ _ body _ =>
    match exprTypes body with
    | Except.ok (consumed, returned) => Except.ok (consumed, returned)
    | Except.error e => Except.error e

/-- The loop body of `resolveTypes`: for each item, fetch its consumed and
returned types (a `Token` yields its cached stack effect, an expression is
resolved recursively), pop the consumed types with `popConsumed`, then push
the returned types (`stack.push(...added)`, i.e. append on the right). -/
def runStack (stack : List ValueType) :
    List (Token ⊕ TokenExpression) → Except Unit (List ValueType)
  | [] => Except.ok stack
  | item :: rest =>
    match
      (match item with
       | Sum.inl t => Except.ok (t.consumedTypes, t.returnTypes)
       | Sum.inr e => exprTypes e) with
    | Except.ok (consumed, added) =>
      match popConsumed stack consumed with
      | Except.ok stack' => runStack (stack' ++ added) rest
      | Except.error e => Except.error e
    | Except.error e => Except.error e

end

mutual

/-- `unfold` of `ir_types.ts`, returning the token list of the resulting
`PureUnfoldedTokenExpression`:
* `OperationTree.unfold`: flat-map the operands (a `Token` contributes
  itself, an expression contributes `operand.unfold().tokens`), then append
  the operator;
* `UnfoldedTokenExpression.unfold`: flat-map the items the same way;
* `EmptyTokenExpression.unfold`: `[]`;
* `BlockExpression.unfold`: builds a `PureUnfoldedBlockExpression` from
  `this.getSignature()` — which resolves the body's types and can throw a
  type error, modelled by `Except.error` — and the tokens
  `[headerToken, ...body.unfold().tokens, createEndToken()]`. -/
def unfoldE : TokenExpression → Except Unit (List Token)
  | TokenExpression.operationTree operator operands =>
    match unfoldList operands with
    | Except.ok tokens => Except.ok (tokens ++ [operator])
    | Except.error e => Except.error e
  | TokenExpression.unfolded tokens =>
    match unfoldList tokens with
    | Except.ok ts => Except.ok ts
    | Except.error e => Except.error e
  | TokenExpression.empty => Except.ok []
  | TokenExpression.block headerToken _ body _ =>
    match exprTypes body with
    | Except.ok _ =>
      match unfoldE body with
      | Except.ok ts => Except.ok (headerToken :: ts ++ [createEndToken headerToken])
      | Except.error e => Except.error e
    | Except.error e => Except.error e

/-- The `flatMap` over operands shared by `OperationTree.unfold` and
`UnfoldedTokenExpression.unfold`: a `Token` contributes `[token]`, an
expression contributes its unfolded tokens. -/
def unfoldList : List (Token ⊕ TokenExpression) → Except Unit (List Token)
  | [] => Except.ok []
  | Sum.inl t :: rest =>
    match unfoldList rest with
    | Except.ok ts => Except.ok (t :: ts)
    | Except.error e => Except.error e
  | Sum.inr e :: rest =>
    match unfoldE e with
    | Except.ok ts =>
      match unfoldList rest with
      | Except.ok ts' => Except.ok (ts ++ ts')
      | Except.error e' => Except.error e'
    | Except.error e' => Except.error e'

end

/-- Modelled from the spec: export kinds (`src/common/export_types.ts` is not
part of the sources given; the spec's open questions note that only the
keyword `func` is accepted as an export type). -/
inductive ExportType where
  | Func
  | Table
  | Memory
  | Global
  deriving DecidableEq, Repr

/-- A JavaScript number as produced by `Number.parseInt`: an integer or `NaN`. -/
inductive JSNum where
  | num (value : Int)
  | nan
  deriving DecidableEq, Repr

/-- Value of a decimal digit character, `none` otherwise. -/
def decVal (c : Char) : Option Nat :=
  if c.isDigit then some (c.toNat - '0'.toNat) else none

/-- Value of a hexadecimal digit character, `none` otherwise. -/
def hexVal (c : Char) : Option Nat :=
  if c.isDigit then some (c.toNat - '0'.toNat)
  else if 'a' ≤ c ∧ c ≤ 'f' then some (c.toNat - 'a'.toNat + 10)
  else if 'A' ≤ c ∧ c ≤ 'F' then some (c.toNat - 'A'.toNat + 10)
  else none

/-- Accumulate the longest leading run of valid digits; `none` when no digit
was consumed (which `jsParseInt` turns into `NaN`). -/
def parseRun (digitVal : Char → Option Nat) (base : Nat) :
    List Char → Option Nat → Option Nat
  | [], acc => acc
  | c :: cs, acc =>
    match digitVal c with
    | some d => parseRun digitVal base cs (some (acc.getD 0 * base + d))
    | none => acc

/-- Combine a sign with a parsed digit run. -/
def signedNum (sign : Int) : Option Nat → JSNum
  | some n => JSNum.num (sign * Int.ofNat n)
  | none => JSNum.nan

/-- Parse after the optional sign: a `0x`/`0X` literal is read in base 16,
anything else in base 10. -/
def jsParseIntFrom (sign : Int) : List Char → JSNum
  | '0' :: 'x' :: rest => signedNum sign (parseRun hexVal 16 rest none)
  | '0' :: 'X' :: rest => signedNum sign (parseRun hexVal 16 rest none)
  | cs => signedNum sign (parseRun decVal 10 cs none)

/-- JS `Number.parseInt` (radix auto-detection) restricted to the lexeme
shapes a numeric token can carry: an optional sign followed by a decimal or
`0x` hexadecimal digit run; `JSNum.nan` when no digit can be parsed. -/
def jsParseInt (s : String) : JSNum :=
  match s.data with
  | '-' :: rest => jsParseIntFrom (-1) rest
  | '+' :: rest => jsParseIntFrom 1 rest
  | cs => jsParseIntFrom 1 cs

/-- `ExportExpression` of `ir_types.ts`: an export name, an export kind and a
reference that is either a resolved numeric index or a still-symbolic name
(both fields initialized to `null` by the class, then at most one assigned
by the constructor). -/
structure ExportExpression where
  exportName : String
  exportType : ExportType
  exportReferenceIndex : Option JSNum
  exportReferenceName : Option String
  deriving DecidableEq, Repr

/-- Modelled from the spec: `Token.extractName` on a text token returns the
lexeme without the surrounding double quotes (`src/common/token.ts` is not
part of the sources given). -/
def extractName (t : Token) : String :=
  (t.lexeme.drop 1).dropRight 1

/-- `ExportExpression.getExportName`: requires a `Text` token, otherwise the
constructor throws (`Except.error`). -/
def getExportName (exportName : Token) : Except String String :=
  if exportName.type = TokenType.Text then Except.ok (extractName exportName)
  else Except.error "unexpected export name"

/-- `ExportExpression.getExportType`: requires the `func` keyword token,
otherwise the constructor throws. -/
def getExportType (exportType : Token) : Except String ExportType :=
  if exportType.type = TokenType.Func then Except.ok ExportType.Func
  else Except.error "unexpected export type"

/-- `ExportExpression.getExportReference`: a `Nat` token yields
`[Number.parseInt(lexeme), null]`, a `Var` token yields `[null, lexeme]`,
anything else throws. -/
def getExportReference (exportReference : Token) :
    Except String (Option JSNum × Option String) :=
  match exportReference.type with
  | TokenType.Nat => Except.ok (some (jsParseInt exportReference.lexeme), none)
  | TokenType.Var => Except.ok (none, some exportReference.lexeme)
  | _ => Except.error "unexpected export ID"

/-- The `ExportExpression` constructor overload taking three tokens
(the `(export "name" (func ref))` form). -/
def mkExportExpressionTokens (exportName exportType exportReference : Token) :
    Except String ExportExpression :=
  match getExportName exportName with
  | Except.error e => Except.error e
  | Except.ok name =>
    match getExportType exportType with
    | Except.error e => Except.error e
    | Except.ok ty =>
      match getExportReference exportReference with
      | Except.error e => Except.error e
      | Except.ok (refIndex, refName) =>
        Except.ok
          { exportName := name
            exportType := ty
            exportReferenceIndex := refIndex
            exportReferenceName := refName }

/-- The `ExportExpression` constructor overload for inline function exports
(string name, export kind, numeric reference). -/
def mkExportExpressionInline (exportName : String) (exportType : ExportType)
    (exportReference : Int) : ExportExpression :=
  { exportName := exportName
    exportType := exportType
    exportReferenceIndex := some (JSNum.num exportReference)
    exportReferenceName := none }

/-- `FunctionBody` of `ir_types.ts`: a wrapper around the body expression. -/
structure FunctionBody where
  body : TokenExpression

/-- `FunctionExpression` of `ir_types.ts`: signature, body, optional name,
optional inline-export name, parameter-name slots, local types and
local-name slots.  The class field `hasInlineExport` is set by the
constructor to `inlineExportName !== null` and is exposed below as a derived
predicate. -/
structure FunctionExpression where
  functionSignature : FunctionSignature
  functionBody : FunctionBody
  functionName : Option String
  inlineExportName : Option String
  paramNames : List (Option String)
  localTypes : List ValueType
  localNames : List (Option String)

/-- `hasInlineExport`, as assigned once by the constructor. -/
def FunctionExpression.hasInlineExport (f : FunctionExpression) : Bool :=
  f.inlineExportName.isSome

/-- `FunctionExpression.getSignature`. -/
def FunctionExpression.getSignature (f : FunctionExpression) : FunctionSignature :=
  f.functionSignature

/-- The first-match scan shared by `resolveVariableIndex`,
`resolveGlobalTypeIndex` and `resolveGlobalExpressionIndex`: iterate over the
list with its indices and return the first index whose element satisfies the
test; `none` models falling through to the thrown error / failed assertion. -/
def firstIndexWhere {α : Type} (p : α → Bool) : List α → Option Nat
  | [] => none
  | a :: rest => if p a then some 0 else (firstIndexWhere p rest).map (· + 1)

/-- `FunctionExpression.resolveVariableIndex`: scan
`[...paramNames, ...localNames]` for the first slot strictly equal to the
queried name (a `null` slot never equals a string); `none` models the thrown
`Parameter name not found` error. -/
def FunctionExpression.resolveVariableIndex (f : FunctionExpression)
    (nameToResolve : String) : Option Nat :=
  firstIndexWhere (fun slot => slot = some nameToResolve)
    (f.paramNames ++ f.localNames)

/-- `ModuleExpression` of `ir_types.ts`: the interned global types (type
section), the functions, the named globals (currently the functions
themselves) and the export declarations. -/
structure ModuleExpression where
  globalTypes : List FunctionSignature
  functions : List FunctionExpression
  globals : List FunctionExpression
  exportExpressions : List ExportExpression

/-- The freshly constructed module, before any child node is added. -/
def emptyModule : ModuleExpression :=
  { globalTypes := [], functions := [], globals := [], exportExpressions := [] }

/-- `ModuleExpression.addGlobalType`: scan `globalTypes` with lodash
`isEqual` (structural equality) and push only if no structurally equal entry
exists. -/
def addGlobalType (m : ModuleExpression) (type : FunctionSignature) :
    ModuleExpression :=
  if type ∈ m.globalTypes then m
  else { m with globalTypes := m.globalTypes ++ [type] }

/-- `ModuleExpression.resolveGlobalTypeIndex`: return the index of the first
structurally equal entry of `globalTypes`; `none` models the failed
assertion (`Global type not found!`), so no index is ever returned for an
absent type. -/
def resolveGlobalTypeIndex (m : ModuleExpression) (type : FunctionSignature) :
    Option Nat :=
  firstIndexWhere (fun existing => existing = type) m.globalTypes

/-- `ModuleExpression.addExportExpression`. -/
def addExportExpression (m : ModuleExpression) (e : ExportExpression) :
    ModuleExpression :=
  { m with exportExpressions := m.exportExpressions ++ [e] }

/-- `ModuleExpression.addFunctionExpression`: push the function, intern its
signature, push it onto `globals`, and, when it carries an inline export,
append an `ExportExpression` built from the inline-export name, `Func`, and
`functions.length - 1`. -/
def addFunctionExpression (m : ModuleExpression) (f : FunctionExpression) :
    ModuleExpression :=
  let m1 := { m with functions := m.functions ++ [f] }
  let m2 := addGlobalType m1 f.getSignature
  let m3 := { m2 with globals := m2.globals ++ [f] }
  match f.inlineExportName with
  | some name =>
    addExportExpression m3
      (mkExportExpressionInline name ExportType.Func
        (Int.ofNat (m3.functions.length - 1)))
  | none => m3

/-- The operations of `ModuleExpression` that touch `globalTypes`,
`functions` or `exportExpressions` (the constructor dispatches its child
nodes to `addFunctionExpression` / `addExportExpression`). -/
inductive ModuleOp where
  | addFunc (f : FunctionExpression)
  | addType (t : FunctionSignature)
  | addExport (e : ExportExpression)

/-- Apply one module operation. -/
def applyOp (m : ModuleExpression) : ModuleOp → ModuleExpression
  | ModuleOp.addFunc f => addFunctionExpression m f
  | ModuleOp.addType t => addGlobalType m t
  | ModuleOp.addExport e => addExportExpression m e

/-- Apply a sequence of module operations, starting from any module state. -/
def applyOps (m : ModuleExpression) (ops : List ModuleOp) : ModuleExpression :=
  ops.foldl applyOp m

/-- `BlockExpression.getSignature` via `BlockExpression.resolveTypes`: the
signature is rebuilt from the body's consumed and return types.  The
constructor's `signature` argument (second parameter, mirroring the
TypeScript constructor) is never read, because the TypeScript constructor
never assigns the `signature` field. -/
def blockGetSignature (headerToken : Token) (signature : FunctionSignature)
    (blockExpression : TokenExpression) (label : Option String) :
    Except Unit FunctionSignature :=
  match exprTypes blockExpression with
  | Except.ok (consumed, returned) =>
    Except.ok { paramTypes := consumed, returnTypes := returned }
  | Except.error e => Except.error e

/-- The contribution of one operand to an unfolded token sequence: a `Token`
operand contributes itself, an expression operand contributes a successful
unfold of itself. -/
def operandUnfoldsTo : Token ⊕ TokenExpression → List Token → Prop
  | Sum.inl t, us => us = [t]
  | Sum.inr e, us => unfoldE e = Except.ok us

/-!
Concrete fixtures: tokens with the stack effects the opcode table assigns
(`nop : [] → []`, `i32.const : [] → [i32]`, `i64.const : [] → [i64]`,
`i64.store : [i32, i64] → []`, `f64.convert_i32_s : [i32] → [f64]`,
`i32.eq : [i32, i32] → [i32]`), keyword and literal tokens, and the small
expressions and module states the theorems below are evaluated on.
-/

/-- An opcode token with the given lexeme and static stack effect. -/
def opcodeToken (lexeme : String) (consumed returned : List ValueType) : Token :=
  { type := TokenType.Opcode
    lexeme := lexeme
    line := 1
    col := 1
    indexInSource := 0
    opcodeType := some OpcodeType.OtherOp
    valueType := none
    consumedTypes := consumed
    returnTypes := returned }

/-- A non-opcode token of the given kind and lexeme. -/
def plainToken (type : TokenType) (lexeme : String) : Token :=
  { type := type
    lexeme := lexeme
    line := 1
    col := 1
    indexInSource := 0
    opcodeType := none
    valueType := none
    consumedTypes := []
    returnTypes := [] }

def tokNop : Token := opcodeToken "nop" [] []

def tokI32Const : Token := opcodeToken "i32.const" [] [ValueType.i32]

def tokI64Const : Token := opcodeToken "i64.const" [] [ValueType.i64]

def tokI64Store : Token :=
  opcodeToken "i64.store" [ValueType.i32, ValueType.i64] []

def tokF64ConvertI32 : Token :=
  opcodeToken "f64.convert_i32_s" [ValueType.i32] [ValueType.f64]

def tokI32Eq : Token :=
  opcodeToken "i32.eq" [ValueType.i32, ValueType.i32] [ValueType.i32]

def tokBlock : Token := plainToken TokenType.Block "block"

def sigEmpty : FunctionSignature := { paramTypes := [], returnTypes := [] }

def sigF64 : FunctionSignature :=
  { paramTypes := [ValueType.f64, ValueType.f64], returnTypes := [ValueType.f64] }

/-- The stack-form sequence `i32.const 0, i64.const 0, i64.store` (immediates
omitted; they have empty stack effects and do not affect `resolveTypes`). -/
def seqStoreUnfolded : TokenExpression :=
  TokenExpression.unfolded
    [Sum.inl tokI32Const, Sum.inl tokI64Const, Sum.inl tokI64Store]

/-- The folded form `(i64.store (i32.const 0) (i64.const 0))` of the same
instruction sequence. -/
def seqStoreFolded : TokenExpression :=
  TokenExpression.operationTree tokI64Store
    [Sum.inl tokI32Const, Sum.inl tokI64Const]

/-- The folded form `(f64.convert_i32_s (i32.const 0))`. -/
def treeConvert : TokenExpression :=
  TokenExpression.operationTree tokF64ConvertI32 [Sum.inl tokI32Const]

/-- A block body consisting of the single instruction `i32.const 0`. -/
def bodyI32Const : TokenExpression :=
  TokenExpression.unfolded [Sum.inl tokI32Const]

/-- `(block nop)` with absent typeuse: header token `block`, the empty
constructed signature, body `nop`, label `$L`. -/
def blockNop : TokenExpression :=
  TokenExpression.block tokBlock sigEmpty
    (TokenExpression.unfolded [Sum.inl tokNop]) (some "$L")

/-- A block whose body does not type-check: the operator
`f64.convert_i32_s` consumes an `i32` but has no operands. -/
def blockIllTyped : TokenExpression :=
  TokenExpression.block tokBlock sigEmpty
    (TokenExpression.operationTree tokF64ConvertI32 []) none

/-- A function `(func (export "fn"))` with empty signature and inline-export
name `"fn"`. -/
def fnInlineExport : FunctionExpression :=
  { functionSignature := sigEmpty
    functionBody := { body := TokenExpression.empty }
    functionName := none
    inlineExportName := some "fn"
    paramNames := []
    localTypes := []
    localNames := [] }

/-- A function `(func $f)` without inline export. -/
def fnPlain : FunctionExpression :=
  { functionSignature := sigEmpty
    functionBody := { body := TokenExpression.empty }
    functionName := some "$f"
    inlineExportName := none
    paramNames := []
    localTypes := []
    localNames := [] }

/-- A function `(func (param $a f64) (param $b f64) (result f64)
(local $x i32))` — two named parameters followed by one named local. -/
def fnNamedParams : FunctionExpression :=
  { functionSignature := sigF64
    functionBody := { body := TokenExpression.empty }
    functionName := none
    inlineExportName := none
    paramNames := [some "$a", some "$b"]
    localTypes := [ValueType.i32]
    localNames := [some "$x"] }

/-- A module whose type section already holds the empty signature. -/
def moduleWithEmptySig : ModuleExpression :=
  { emptyModule with globalTypes := [sigEmpty] }

/-- A module whose type section holds two distinct signatures. -/
def moduleWithTwoSigs : ModuleExpression :=
  { emptyModule with globalTypes := [sigEmpty, sigF64] }

def tokTextFn : Token := plainToken TokenType.Text "\x22fn\x22"

def tokFuncKw : Token := plainToken TokenType.Func "func"

def tokNatThree : Token := plainToken TokenType.Nat "3"

def tokVarB : Token := plainToken TokenType.Var "$b"

def tokFloatLit : Token := plainToken TokenType.Float "1.5"

/-!
Theorems.  First the shared lemmas about the first-match scan and about how
each module operation touches `globalTypes`, then one theorem (with witness
where required) per specification claim.
-/

theorem firstIndexWhere_eq_some {α : Type} (p : α → Bool) (l : List α) (i : Nat)
    (h : firstIndexWhere p l = some i) :
    ∃ a, l.get? i = some a ∧ p a = true ∧
      ∀ j, j < i → ∀ b, l.get? j = some b → p b = false := by
  induction l generalizing i with
  | nil => simp [firstIndexWhere] at h
  | cons a rest ih =>
    by_cases hpa : p a
    · simp [firstIndexWhere, hpa] at h
      subst h
      exact ⟨a, rfl, hpa, fun j hj => by omega⟩
    · simp [firstIndexWhere, hpa] at h
      obtain ⟨i', hi', rfl⟩ := h
      obtain ⟨b, hb, hpb, hmin⟩ := ih i' hi'
      refine ⟨b, by simpa using hb, hpb, ?_⟩
      intro j hj c hc
      cases j with
      | zero =>
        simp at hc
        subst hc
        simpa using hpa
      | succ j' =>
        exact hmin j' (by omega) c (by simpa using hc)

theorem firstIndexWhere_eq_none {α : Type} (p : α → Bool) (l : List α) :
    firstIndexWhere p l = none ↔ ∀ a ∈ l, p a = false := by
  induction l with
  | nil => simp [firstIndexWhere]
  | cons a rest ih =>
    by_cases hpa : p a
    · simp [firstIndexWhere, hpa]
    · simp [firstIndexWhere, hpa, Option.map_eq_none', ih]

theorem firstIndexWhere_isSome_of_mem {α : Type} (p : α → Bool) (l : List α)
    (a : α) (ha : a ∈ l) (hpa : p a = true) :
    ∃ i, firstIndexWhere p l = some i := by
  rcases h : firstIndexWhere p l with _ | i
  · exact absurd hpa (by simp [(firstIndexWhere_eq_none p l).mp h a ha])
  · exact ⟨i, rfl⟩

theorem addGlobalType_globalTypes (m : ModuleExpression) (t : FunctionSignature) :
    (addGlobalType m t).globalTypes =
      if t ∈ m.globalTypes then m.globalTypes else m.globalTypes ++ [t] := by
  unfold addGlobalType
  split <;> simp_all

theorem addGlobalType_nodup (m : ModuleExpression) (t : FunctionSignature)
    (h : m.globalTypes.Nodup) : (addGlobalType m t).globalTypes.Nodup := by
  rw [addGlobalType_globalTypes]
  split
  · exact h
  · next hmem => simp [List.nodup_append, h, hmem]

theorem addFunctionExpression_globalTypes (m : ModuleExpression)
    (f : FunctionExpression) :
    (addFunctionExpression m f).globalTypes =
      (addGlobalType { m with functions := m.functions ++ [f] }
        f.getSignature).globalTypes := by
  unfold addFunctionExpression addExportExpression
  cases f.inlineExportName <;> rfl

theorem applyOp_nodup (m : ModuleExpression) (op : ModuleOp)
    (h : m.globalTypes.Nodup) : (applyOp m op).globalTypes.Nodup := by
  cases op with
  | addFunc f =>
    show (addFunctionExpression m f).globalTypes.Nodup
    rw [addFunctionExpression_globalTypes]
    exact addGlobalType_nodup _ _ h
  | addType t => exact addGlobalType_nodup _ _ h
  | addExport e => exact h

theorem applyOps_nodup (ops : List ModuleOp) (m : ModuleExpression)
    (h : m.globalTypes.Nodup) : (applyOps m ops).globalTypes.Nodup := by
  induction ops generalizing m with
  | nil => exact h
  | cons op rest ih => exact ih _ (applyOp_nodup m op h)

/-- C2: after any sequence of operations that add types or functions to a
`ModuleExpression`, `globalTypes` contains no two structurally equal
entries; and the first insertion of a signature fixes its index — adding a
structurally equal signature later leaves `globalTypes` unchanged. -/
theorem globalTypes_dedup_invariant :
    (∀ ops : List ModuleOp, (applyOps emptyModule ops).globalTypes.Nodup)
    ∧ ∀ (m : ModuleExpression) (t : FunctionSignature),
        t ∈ m.globalTypes → (addGlobalType m t).globalTypes = m.globalTypes := by
  constructor
  · intro ops
    exact applyOps_nodup ops emptyModule (by simp [emptyModule])
  · intro m t hmem
    rw [addGlobalType_globalTypes]
    simp [hmem]

/-- Witness for C2 at a concrete input: re-adding the empty signature to a
module that already interned it leaves `globalTypes` unchanged. -/
theorem globalTypes_dedup_invariant_witness :
    (addGlobalType moduleWithEmptySig sigEmpty).globalTypes
      = moduleWithEmptySig.globalTypes :=
  globalTypes_dedup_invariant.2 moduleWithEmptySig sigEmpty (by decide)

/-- C3: `resolveGlobalTypeIndex` returns the index of the first structurally
equal entry of `globalTypes` when one exists, and signals the internal
(assertion) error — modelled by `none`, so no valid index — when no entry is
structurally equal. -/
theorem resolveGlobalTypeIndex_spec (m : ModuleExpression) (t : FunctionSignature) :
    (∀ i, resolveGlobalTypeIndex m t = some i →
        m.globalTypes.get? i = some t ∧
          ∀ j, j < i → m.globalTypes.get? j ≠ some t)
    ∧ (t ∈ m.globalTypes → ∃ i, resolveGlobalTypeIndex m t = some i)
    ∧ (t ∉ m.globalTypes → resolveGlobalTypeIndex m t = none) := by
  unfold resolveGlobalTypeIndex
  refine ⟨?_, ?_, ?_⟩
  · intro i hi
    obtain ⟨a, ha, hpa, hmin⟩ := firstIndexWhere_eq_some _ _ _ hi
    have hat : a = t := by simpa using hpa
    subst hat
    refine ⟨ha, ?_⟩
    intro j hj hcontra
    have := hmin j hj a hcontra
    simp at this
  · intro hmem
    exact firstIndexWhere_isSome_of_mem _ _ t hmem (by simp)
  · intro hmem
    rw [firstIndexWhere_eq_none]
    intro a ha
    simp only [decide_eq_false_iff_not]
    intro hat
    exact hmem (hat ▸ ha)

/-- Witness for C3 at a concrete input: in a module whose type section is
`[() → (), (f64, f64) → (f64)]`, `resolveGlobalTypeIndex` maps the second
signature to index 1, where a structurally equal entry sits. -/
theorem resolveGlobalTypeIndex_spec_witness :
    moduleWithTwoSigs.globalTypes.get? 1 = some sigF64 :=
  ((resolveGlobalTypeIndex_spec moduleWithTwoSigs sigF64).1 1 rfl).1

theorem addGlobalType_functions (m : ModuleExpression) (t : FunctionSignature) :
    (addGlobalType m t).functions = m.functions := by
  unfold addGlobalType
  split <;> rfl

theorem addGlobalType_exportExpressions (m : ModuleExpression)
    (t : FunctionSignature) :
    (addGlobalType m t).exportExpressions = m.exportExpressions := by
  unfold addGlobalType
  split <;> rfl

theorem addFunctionExpression_functions (m : ModuleExpression)
    (f : FunctionExpression) :
    (addFunctionExpression m f).functions = m.functions ++ [f] := by
  unfold addFunctionExpression addExportExpression
  cases f.inlineExportName <;> simp [addGlobalType_functions]

/-- C8: adding a function that carries an inline-export name appends exactly
one `ExportExpression` whose name is the inline-export name, whose kind is
`Func`, and whose resolved reference index is the position of the function
just added (the length of the previous function list); adding a function
without an inline export appends no export entry. -/
theorem addFunctionExpression_inlineExport (m : ModuleExpression)
    (f : FunctionExpression) :
    (∀ name, f.inlineExportName = some name →
        (addFunctionExpression m f).exportExpressions =
            m.exportExpressions ++
              [{ exportName := name
                 exportType := ExportType.Func
                 exportReferenceIndex :=
                   some (JSNum.num (Int.ofNat m.functions.length))
                 exportReferenceName := none }]
          ∧ (addFunctionExpression m f).functions = m.functions ++ [f])
    ∧ (f.inlineExportName = none →
        (addFunctionExpression m f).exportExpressions = m.exportExpressions
          ∧ (addFunctionExpression m f).functions = m.functions ++ [f]) := by
  constructor
  · intro name hname
    refine ⟨?_, addFunctionExpression_functions m f⟩
    unfold addFunctionExpression addExportExpression mkExportExpressionInline
    rw [hname]
    simp [addGlobalType_exportExpressions, addGlobalType_functions]
  · intro hnone
    refine ⟨?_, addFunctionExpression_functions m f⟩
    unfold addFunctionExpression
    rw [hnone]
    simp [addGlobalType_exportExpressions]

/-- Witness for C8 at a concrete input: adding `(func (export "fn"))` to the
empty module appends the synthesized export `("fn", Func, 0)`. -/
theorem addFunctionExpression_inlineExport_witness :
    (addFunctionExpression emptyModule fnInlineExport).exportExpressions =
        emptyModule.exportExpressions ++
          [{ exportName := "fn"
             exportType := ExportType.Func
             exportReferenceIndex := some (JSNum.num (Int.ofNat 0))
             exportReferenceName := none }]
      ∧ (addFunctionExpression emptyModule fnInlineExport).functions =
          emptyModule.functions ++ [fnInlineExport] :=
  ((addFunctionExpression_inlineExport emptyModule fnInlineExport).1 "fn" rfl)

/-- C9: `resolveVariableIndex` returns the smallest index in
`paramNames ++ localNames` whose slot equals the queried name; a named
parameter therefore always resolves to an index below the parameter count,
pointing at its own slot; and the call fails (the thrown name-resolution
error, modelled by `none`) if and only if no parameter or local slot has the
queried name. -/
theorem resolveVariableIndex_spec (f : FunctionExpression) (x : String) :
    (∀ i, f.resolveVariableIndex x = some i →
        (f.paramNames ++ f.localNames).get? i = some (some x) ∧
          ∀ j, j < i → (f.paramNames ++ f.localNames).get? j ≠ some (some x))
    ∧ (∀ j, f.paramNames.get? j = some (some x) →
        ∃ i, f.resolveVariableIndex x = some i ∧ i < f.paramNames.length ∧
          f.paramNames.get? i = some (some x))
    ∧ (f.resolveVariableIndex x = none ↔ some x ∉ f.paramNames ++ f.localNames) := by
  have hsome : ∀ i, f.resolveVariableIndex x = some i →
      (f.paramNames ++ f.localNames).get? i = some (some x) ∧
        ∀ j, j < i → (f.paramNames ++ f.localNames).get? j ≠ some (some x) := by
    intro i hi
    obtain ⟨a, ha, hpa, hmin⟩ :=
      firstIndexWhere_eq_some _ _ _ hi
    have hax : a = some x := by simpa using hpa
    subst hax
    refine ⟨ha, ?_⟩
    intro j hj hcontra
    have := hmin j hj (some x) hcontra
    simp at this
  refine ⟨hsome, ?_, ?_⟩
  · intro j hj
    have hjlt : j < f.paramNames.length := by
      rcases List.get?_eq_some.mp hj with ⟨h, _⟩
      exact h
    have hmem : (some x) ∈ f.paramNames ++ f.localNames :=
      List.mem_append_left _ (List.get?_mem hj)
    obtain ⟨i, hi⟩ :=
      firstIndexWhere_isSome_of_mem
        (fun slot => slot = some x) (f.paramNames ++ f.localNames)
        (some x) hmem (by simp)
    obtain ⟨hget, hmin⟩ := hsome i hi
    have hij : i ≤ j := by
      by_contra hlt
      exact hmin j (by omega)
        (by rw [List.get?_append hjlt]; exact hj)
    have hilt : i < f.paramNames.length := by omega
    refine ⟨i, hi, hilt, ?_⟩
    rw [List.get?_append hilt] at hget
    exact hget
  · unfold FunctionExpression.resolveVariableIndex
    rw [firstIndexWhere_eq_none]
    constructor
    · intro h hmem
      have := h (some x) hmem
      simp at this
    · intro hmem a ha
      simp only [decide_eq_false_iff_not]
      intro hax
      exact hmem (hax ▸ ha)

/-- Witness for C9 at a concrete input: in a function with parameters
`$a $b` and local `$x`, `resolveVariableIndex "$b"` returns index 1, and
slot 1 of the concatenated name list is `$b`. -/
theorem resolveVariableIndex_spec_witness :
    (fnNamedParams.paramNames ++ fnNamedParams.localNames).get? 1
      = some (some "$b") :=
  ((resolveVariableIndex_spec fnNamedParams "$b").1 1 rfl).1

/-- C10: every successfully constructed `ExportExpression` has exactly one
of `exportReferenceIndex` / `exportReferenceName` non-null: a numeric
reference argument or a `Nat` token sets `exportReferenceIndex` (parsed from
the lexeme) and leaves `exportReferenceName` null; a `Var` token sets
`exportReferenceName` and leaves `exportReferenceIndex` null; any other
reference token makes construction throw. -/
theorem exportExpression_reference_invariant :
    (∀ (nameTok typeTok refTok : Token) (e : ExportExpression),
        mkExportExpressionTokens nameTok typeTok refTok = Except.ok e →
          (refTok.type = TokenType.Nat
              ∧ e.exportReferenceIndex = some (jsParseInt refTok.lexeme)
              ∧ e.exportReferenceName = none)
            ∨ (refTok.type = TokenType.Var
              ∧ e.exportReferenceIndex = none
              ∧ e.exportReferenceName = some refTok.lexeme))
    ∧ (∀ (name : String) (ty : ExportType) (ref : Int),
        (mkExportExpressionInline name ty ref).exportReferenceIndex
            = some (JSNum.num ref)
          ∧ (mkExportExpressionInline name ty ref).exportReferenceName = none)
    ∧ (∀ (nameTok typeTok refTok : Token),
        refTok.type ≠ TokenType.Nat → refTok.type ≠ TokenType.Var →
          ∀ e, mkExportExpressionTokens nameTok typeTok refTok ≠ Except.ok e) := by
  refine ⟨?_, fun name ty ref => ⟨rfl, rfl⟩, ?_⟩
  · intro nameTok typeTok refTok e h
    unfold mkExportExpressionTokens at h
    rcases hname : getExportName nameTok with e1 | name <;> rw [hname] at h
    · exact absurd h (by simp)
    rcases htype : getExportType typeTok with e2 | ty <;> rw [htype] at h
    · exact absurd h (by simp)
    rcases href : getExportReference refTok with e3 | pair <;> rw [href] at h
    · exact absurd h (by simp)
    unfold getExportReference at href
    cases hkind : refTok.type <;> rw [hkind] at href <;>
      simp only [reduceCtorEq] at href
    · left
      have hpair : pair = (some (jsParseInt refTok.lexeme), none) := by
        simpa using href.symm
      subst hpair
      simp only [Except.ok.injEq] at h
      subst h
      exact ⟨rfl, rfl, rfl⟩
    · right
      have hpair : pair = (none, some refTok.lexeme) := by
        simpa using href.symm
      subst hpair
      simp only [Except.ok.injEq] at h
      subst h
      exact ⟨rfl, rfl, rfl⟩
  · intro nameTok typeTok refTok hNat hVar e h
    have href : getExportReference refTok = Except.error "unexpected export ID" := by
      unfold getExportReference
      cases hkind : refTok.type <;> simp_all
    unfold mkExportExpressionTokens at h
    rcases hname : getExportName nameTok with e1 | name <;> rw [hname] at h
    · exact absurd h (by simp)
    rcases htype : getExportType typeTok with e2 | ty <;> rw [htype] at h
    · exact absurd h (by simp)
    rw [href] at h
    exact absurd h (by simp)

/-- Witness for C10 at a concrete input: constructing an export from the
text token `"fn"`, the `func` keyword and the `Var` token `$b` succeeds and
sets only `exportReferenceName`. -/
theorem exportExpression_reference_invariant_witness :
    (tokVarB.type = TokenType.Nat
        ∧ ({ exportName := "fn"
             exportType := ExportType.Func
             exportReferenceIndex := none
             exportReferenceName := some "$b" } : ExportExpression).exportReferenceIndex
            = some (jsParseInt tokVarB.lexeme)
        ∧ ({ exportName := "fn"
             exportType := ExportType.Func
             exportReferenceIndex := none
             exportReferenceName := some "$b" } : ExportExpression).exportReferenceName
            = none)
      ∨ (tokVarB.type = TokenType.Var
        ∧ ({ exportName := "fn"
             exportType := ExportType.Func
             exportReferenceIndex := none
             exportReferenceName := some "$b" } : ExportExpression).exportReferenceIndex
            = none
        ∧ ({ exportName := "fn"
             exportType := ExportType.Func
             exportReferenceIndex := none
             exportReferenceName := some "$b" } : ExportExpression).exportReferenceName
            = some tokVarB.lexeme) :=
  exportExpression_reference_invariant.1 tokTextFn tokFuncKw tokVarB
    { exportName := "fn"
      exportType := ExportType.Func
      exportReferenceIndex := none
      exportReferenceName := some "$b" } rfl

theorem unfoldList_ok_iff (operands : List (Token ⊕ TokenExpression))
    (us : List Token) :
    unfoldList operands = Except.ok us ↔
      ∃ tss : List (List Token),
        List.Forall₂ operandUnfoldsTo operands tss ∧ us = tss.join := by
  induction operands generalizing us with
  | nil =>
    simp only [unfoldList, Except.ok.injEq, List.forall₂_nil_left_iff]
    constructor
    · rintro rfl
      exact ⟨[], rfl, rfl⟩
    · rintro ⟨tss, rfl, rfl⟩
      rfl
  | cons item rest ih =>
    cases item with
    | inl t =>
      constructor
      · intro h
        unfold unfoldList at h
        rcases hr : unfoldList rest with e | ts <;> rw [hr] at h
        · exact absurd h (by simp)
        · simp only [Except.ok.injEq] at h
          obtain ⟨tss, hall, rfl⟩ := (ih ts).mp hr
          exact ⟨[t] :: tss, List.Forall₂.cons rfl hall, h.symm⟩
      · rintro ⟨tss, hall, rfl⟩
        rcases List.forall₂_cons_left_iff.mp hall with ⟨b, tss', hb, hall', rfl⟩
        have hb' : b = [t] := hb
        subst hb'
        unfold unfoldList
        rw [(ih tss'.join).mpr ⟨tss', hall', rfl⟩]
        rfl
    | inr e =>
      constructor
      · intro h
        unfold unfoldList at h
        rcases he : unfoldE e with e1 | ts1 <;> rw [he] at h
        · exact absurd h (by simp)
        rcases hr : unfoldList rest with e2 | ts2 <;> rw [hr] at h
        · exact absurd h (by simp)
        simp only [Except.ok.injEq] at h
        obtain ⟨tss, hall, rfl⟩ := (ih ts2).mp hr
        exact ⟨ts1 :: tss, List.Forall₂.cons he hall, h.symm⟩
      · rintro ⟨tss, hall, rfl⟩
        rcases List.forall₂_cons_left_iff.mp hall with ⟨b, tss', hb, hall', rfl⟩
        unfold unfoldList
        rw [show unfoldE e = Except.ok b from hb,
          (ih tss'.join).mpr ⟨tss', hall', rfl⟩]
        simp

/-- C1: an `OperationTree(op, [arg₁ … argₙ])` unfolds to the concatenation
of the unfoldings of its operands followed by the operator — a `Token`
operand contributing itself — and a `BlockExpression` unfolds to the header
token, then the unfolded body tokens, then a synthesized `end` token. -/
theorem unfold_shape :
    (∀ (operator : Token) (operands : List (Token ⊕ TokenExpression))
        (ts : List Token),
        unfoldE (TokenExpression.operationTree operator operands) = Except.ok ts
          ↔ ∃ tss : List (List Token),
              List.Forall₂ operandUnfoldsTo operands tss
                ∧ ts = tss.join ++ [operator])
    ∧ ∀ (headerToken : Token) (signature : FunctionSignature)
        (body : TokenExpression) (label : Option String)
        (cr : List ValueType × List ValueType) (bts : List Token),
        exprTypes body = Except.ok cr → unfoldE body = Except.ok bts →
          unfoldE (TokenExpression.block headerToken signature body label)
            = Except.ok (headerToken :: bts ++ [createEndToken headerToken]) := by
  constructor
  · intro operator operands ts
    constructor
    · intro h
      unfold unfoldE at h
      rcases hl : unfoldList operands with e | us <;> rw [hl] at h
      · exact absurd h (by simp)
      simp only [Except.ok.injEq] at h
      obtain ⟨tss, hall, rfl⟩ := (unfoldList_ok_iff operands us).mp hl
      exact ⟨tss, hall, h.symm⟩
    · rintro ⟨tss, hall, rfl⟩
      unfold unfoldE
      rw [(unfoldList_ok_iff operands tss.join).mpr ⟨tss, hall, rfl⟩]
  · intro headerToken signature body label cr bts hty hun
    unfold unfoldE
    rw [hty, hun]

/-- Witness for C1 at a concrete input: `(block $L nop)` with empty
signature unfolds to exactly `[block, nop, end]`. -/
theorem unfold_shape_witness :
    unfoldE blockNop
      = Except.ok (tokBlock :: [tokNop] ++ [createEndToken tokBlock]) :=
  unfold_shape.2 tokBlock sigEmpty
    (TokenExpression.unfolded [Sum.inl tokNop]) (some "$L") ([], []) [tokNop]
    rfl rfl

/-- C4: behavior of `UnfoldedTokenExpression.resolveTypes` at the failing
input.  The stack-form sequence `i32.const, i64.const, i64.store` pushes
`[i32, i64]` and then reaches `i64.store`, whose declared consumed types are
`[i32, i64]`; the popping loop iterates the consumed list in declared order
and compares its leftmost entry `i32` against the stack top `i64`, so the
checker throws a type error — although the claim (matching the final
`isEqual(stack, consumedTypes)` convention of `OperationTree.resolveTypes`,
which accepts the folded form of the very same sequence) requires the
rightmost consumed type to be matched against the top, which would succeed
here. -/
theorem stackPopOrder_code_behavior :
    exprTypes seqStoreUnfolded = Except.error ()
      ∧ exprTypes seqStoreFolded = Except.ok ([], [])
      ∧ tokI64Store.consumedTypes = [ValueType.i32, ValueType.i64] :=
  ⟨rfl, rfl, rfl⟩

/-- C5 counterexample: for the folded form `(f64.convert_i32_s (i32.const))`
type checking succeeds, but the tree's resulting consumed types are `[]`
(the code assigns `this.consumedTypes = []`), not the operator's declared
consumed types `[i32]` — refuting the claim that `getConsumedTypes` equals
the operator's consumed types. -/
theorem operationTree_consumedTypes_counterexample :
    exprTypes treeConvert = Except.ok ([], [ValueType.f64])
      ∧ tokF64ConvertI32.consumedTypes = [ValueType.i32]
      ∧ ([] : List ValueType) ≠ [ValueType.i32] :=
  ⟨rfl, rfl, by decide⟩

/-- C5 (amended): type-checking an `OperationTree(op, args)` evaluates the
arguments on a fresh inner stack that starts empty and succeeds exactly when
the inner stack's final contents equal `op`'s declared consumed types
(bottom-to-top); on success the tree's `getReturnTypes` is `op`'s produced
types and its `getConsumedTypes` is empty — the operands already supply the
operator's inputs inside the tree, so the tree's net effect on the enclosing
stack is to push the produced types and consume nothing. -/
theorem operationTree_resolveTypes_spec (operator : Token)
    (operands : List (Token ⊕ TokenExpression)) (c r : List ValueType) :
    exprTypes (TokenExpression.operationTree operator operands)
        = Except.ok (c, r)
      ↔ runStack [] operands = Except.ok operator.consumedTypes
          ∧ c = [] ∧ r = operator.returnTypes := by
  unfold exprTypes
  rcases h : runStack [] operands with e | stack
  · simp
  · simp only []
    by_cases hs : stack = operator.consumedTypes
    · subst hs
      simp [eq_comm, and_comm]
    · simp [hs]

/-- Witness for C5 (amended) at a concrete input: the folded form
`(f64.convert_i32_s (i32.const))` type-checks with empty consumed types and
produced types `[f64]`, the operator's produced types. -/
theorem operationTree_resolveTypes_spec_witness :
    exprTypes (TokenExpression.operationTree tokF64ConvertI32
        [Sum.inl tokI32Const]) = Except.ok ([], [ValueType.f64]) :=
  (operationTree_resolveTypes_spec tokF64ConvertI32 [Sum.inl tokI32Const]
    [] [ValueType.f64]).mpr ⟨rfl, rfl, rfl⟩

/-- C6: behavior of `BlockExpression.getSignature` at the failing input.
A block constructed from a `block` form with absent typeuse receives the
empty signature, but its body is `i32.const`; `getSignature` returns the
signature `() → (i32)` rebuilt from the body's types — the TypeScript
constructor never assigns the `signature` field it receives — instead of
the constructed empty signature the claim requires. -/
theorem blockGetSignature_code_behavior :
    blockGetSignature tokBlock sigEmpty bodyI32Const none
        = Except.ok { paramTypes := [], returnTypes := [ValueType.i32] }
      ∧ ({ paramTypes := [], returnTypes := [ValueType.i32] } : FunctionSignature)
          ≠ sigEmpty :=
  ⟨rfl, by decide⟩

/-- C7 counterexample: `unfold` is not total — unfolding a `BlockExpression`
resolves the block signature from the body, so a block whose body fails to
type-check (here `(f64.convert_i32_s)` with no operands) makes `unfold`
throw the body's type error. -/
theorem unfold_not_total_counterexample :
    unfoldE blockIllTyped = Except.error () := rfl

/-- C7 (amended): `unfold` is idempotent — a stack-form body consisting only
of tokens unfolds to exactly its own token stream, hence re-unfolding the
result of any successful unfold returns it unchanged; but `unfold` is not
total, because unfolding a `BlockExpression` resolves the block's signature
and propagates a type error from the block body. -/
theorem unfold_idempotent :
    (∀ toks : List Token,
        unfoldE (TokenExpression.unfolded (toks.map Sum.inl)) = Except.ok toks)
    ∧ ∀ (e : TokenExpression) (ts : List Token),
        unfoldE e = Except.ok ts →
          unfoldE (TokenExpression.unfolded (ts.map Sum.inl)) = Except.ok ts := by
  have base : ∀ toks : List Token,
      unfoldList (toks.map Sum.inl) = Except.ok toks := by
    intro toks
    induction toks with
    | nil => rfl
    | cons t rest ih =>
      show unfoldList (Sum.inl t :: rest.map Sum.inl) = _
      unfold unfoldList
      rw [ih]
  have main : ∀ toks : List Token,
      unfoldE (TokenExpression.unfolded (toks.map Sum.inl)) = Except.ok toks := by
    intro toks
    unfold unfoldE
    rw [base]
  exact ⟨main, fun e ts _ => main ts⟩

/-- Witness for C7 at a concrete input: re-unfolding the unfolded form of
`(i64.store (i32.const) (i64.const))` returns the same token stream. -/
theorem unfold_idempotent_witness :
    unfoldE (TokenExpression.unfolded
        ([tokI32Const, tokI64Const, tokI64Store].map Sum.inl))
      = Except.ok [tokI32Const, tokI64Const, tokI64Store] :=
  unfold_idempotent.2 seqStoreFolded [tokI32Const, tokI64Const, tokI64Store] rfl

end Wabt
